import Mathlib

/-!
Verification of the boltzmann pricing/gas API core.

This file shallowly embeds the algorithmic core of the repository:

* the fee-history percentile estimator
  (`src/domains/gas/price/alloy.rs`, `AlloyGasOracle::calculate_gas_prices`),
* the Etherscan gas-oracle response processing
  (`src/domains/gas/price/etherscan.rs`, `EtherscanGasOracle::get_gas_prices`),
* the gas route dispatch (`src/api/routes/gas.rs`, `get_gas_estimates`),
* the crypto price route aggregation (`src/api/routes/crypto.rs`,
  `get_crypto_prices`),
* the quote data model and normalizer (`src/coins/mod.rs`, `Quote::with_amount`)
  and the CoinMarketCap quote construction
  (`src/domains/crypto/coinmarketcap.rs`, `CoinMarketCap::fetch_quotes`).

Modelling conventions:

* `f64` values are modelled as exact rationals (`ℚ`).  Every arithmetic
  operation performed by the embedded code (addition, multiplication,
  division by constants, `max`, comparison) is the exact counterpart of the
  floating-point operation; rounding behaviour of `f64` itself is outside
  the model.
* Network / clock effects are modelled by passing the outcome of each
  external call (HTTP fetch, client construction) explicitly in an
  environment record; timestamps are carried as opaque integers.
* `Result<T, E>` becomes `Except E T`; `Option<T>` becomes `Option T`.
-/

namespace Boltzmann

/-- Model of Rust `f64` as exact rationals (see the header note). -/
abbrev F64 := ℚ

/-! ## Fee-history percentile estimator (`src/domains/gas/price/alloy.rs`) -/

/-- `alloy_rpc_types::FeeHistory`, restricted to the two fields read by
`calculate_gas_prices`: `base_fee_per_gas : Vec<u128>` and
`reward : Option<Vec<Vec<u128>>>` (wei amounts, modelled as `ℕ`). -/
structure FeeHistory where
  base_fee_per_gas : List ℕ
  reward : Option (List (List ℕ))

/-- `AlloyError` from `src/domains/gas/price/alloy.rs`. -/
inductive AlloyError where
  | ProviderError (msg : String)
  | CalculationError (msg : String)
  | MissingRpcUrl
deriving DecidableEq

/-- Wei → gwei conversion `*x as f64 / 1_000_000_000.0`. -/
def wei_to_gwei (wei : ℕ) : F64 := (wei : ℚ) / 1000000000

/-- The ascending comparator `|a, b| a.partial_cmp(b).unwrap()` used by
`priority_fees.sort_by` (total on `ℚ`; the `f64` NaN panic case cannot arise
since all inputs are quotients of naturals). -/
def ratLE (a b : ℚ) : Bool := a ≤ b

/-- The loop of `calculate_gas_prices` that collects, for each block of
`fee_history.reward`, the first reward value converted to gwei
(`rewards.first()` → `priority_fees.push`); an absent `reward` field
contributes nothing. -/
def collect_priority_fees (fh : FeeHistory) : List F64 :=
  match fh.reward with
  | some reward_percentiles =>
      reward_percentiles.filterMap (fun rewards => rewards.head?.map wei_to_gwei)
  | none => []

/-- `AlloyGasOracle::calculate_gas_prices` (alloy.rs lines 61-121), returning
the `(low, average, high)` gwei triple.  The in-bounds vector indexing
`priority_fees[len / 4]` etc. is rendered with `List.getD _ _ 0`; the indices
are always in bounds in the non-empty branch, so the default is never used. -/
def calculate_gas_prices (fh : FeeHistory) : Except AlloyError (F64 × F64 × F64) :=
  if fh.base_fee_per_gas.isEmpty then
    .error (.CalculationError "No base fee data available")
  else
    match fh.base_fee_per_gas.getLast? with
    | none => .error (.CalculationError "No base fee available")
    | some latest_base_fee =>
      let base_fee_gwei := wei_to_gwei latest_base_fee
      let priority_fees := collect_priority_fees fh
      let tiers :=
        if priority_fees.isEmpty then
          ((1 : F64), (2 : F64), (3 : F64))
        else
          let sorted := priority_fees.mergeSort ratLE
          let len := priority_fees.length
          (max (sorted.getD (len / 4) 0) 1,
           max (sorted.getD (len / 2) 0) 2,
           max (sorted.getD (len * 3 / 4) 0) 3)
      .ok (base_fee_gwei + tiers.1, base_fee_gwei + tiers.2.1, base_fee_gwei + tiers.2.2)

/-- The priority-fee tier selection as worded by the specification: sort the
collected per-block gwei samples ascending, pick the values at indices
`⌊L/4⌋`, `⌊L/2⌋`, `⌊3L/4⌋`, and floor them at 1.0 / 2.0 / 3.0 gwei.
Stated separately from `calculate_gas_prices` so that the estimator can be
proved to refine the spec's wording. -/
def spec_priority_tiers (samples : List F64) : F64 × F64 × F64 :=
  let sorted := samples.mergeSort ratLE
  let L := samples.length
  (max (sorted.getD (L / 4) 0) 1,
   max (sorted.getD (L / 2) 0) 2,
   max (sorted.getD (L * 3 / 4) 0) 3)

/-! ## Gas price data model (`src/domains/gas/price/mod.rs`) -/

/-- `GasPrice` (mod.rs): the three tier values in gwei.  The `timestamp`
field (`chrono::Utc::now()` at construction) is a clock effect and is not
modelled. -/
structure GasPrice where
  low : F64
  average : F64
  high : F64
deriving DecidableEq

/-- `GasOracleSource` (mod.rs). -/
inductive GasOracleSource where
  | Etherscan
  | Alloy
deriving DecidableEq

/-- `GasQuote` (mod.rs). -/
structure GasQuote where
  gas_price : GasPrice
  provider : GasOracleSource
deriving DecidableEq

/-! ## Etherscan response processing (`src/domains/gas/price/etherscan.rs`)

`EtherscanGasOracle::get_gas_prices` fetches a JSON document; its pure part
checks the reported status and parses three decimal-string tiers.  The
response fields never read by that logic (`LastBlock`, `suggestBaseFee`,
`gasUsedRatio`) are omitted from the embedding. -/

/-- The three tier strings of `EtherscanGasResult`. -/
structure EtherscanGasResult where
  safe_gas_price : String
  propose_gas_price : String
  fast_gas_price : String
deriving DecidableEq

/-- `EtherscanGasResponse`. -/
structure EtherscanGasResponse where
  status : String
  message : String
  result : EtherscanGasResult
deriving DecidableEq

/-- The two error shapes raised by the pure part of
`EtherscanGasOracle::get_gas_prices`:
`ApiError` is the `bail!("Etherscan API error: {message}")` on a non-success
status (the spec's `UpstreamRejected`), and `InvalidGasPrice tier value` is
the `with_context("Invalid {tier} gas price ...")` wrapping a float parse
failure (the spec's `MalformedUpstreamData`). -/
inductive EtherscanError where
  | ApiError (message : String)
  | InvalidGasPrice (tier : String) (value : String)
deriving DecidableEq

/-- Digit run → natural number (`cs` are ASCII digits). -/
def digitsToNat (cs : List Char) : ℕ :=
  cs.foldl (fun n c => 10 * n + (c.toNat - 48)) 0

/-- Exponent tail of a float literal after the sign: a non-empty digit run
ending the string, scaling the mantissa by `10 ^ (esign * digits)`. -/
def parse_exp_digits (m : ℚ) (esign : ℤ) (cs : List Char) : Option ℚ :=
  let ds := cs.takeWhile Char.isDigit
  let rest := cs.dropWhile Char.isDigit
  if ds.isEmpty || !rest.isEmpty then none
  else some (m * (10 : ℚ) ^ (esign * (digitsToNat ds : ℤ)))

/-- Optional exponent part (`e`/`E`, optional sign, digits) of a float
literal; anything else trailing the mantissa is a parse failure. -/
def parse_exp (m : ℚ) (cs : List Char) : Option ℚ :=
  match cs with
  | [] => some m
  | c :: rest =>
    if c = 'e' ∨ c = 'E' then
      match rest with
      | '+' :: rest2 => parse_exp_digits m 1 rest2
      | '-' :: rest2 => parse_exp_digits m (-1) rest2
      | _ => parse_exp_digits m 1 rest
    else none

/-- Mantissa of a float literal after the sign: `Digit+ | Digit+ '.' Digit*
| Digit* '.' Digit+`, followed by an optional exponent. -/
def parse_mantissa (sign : ℚ) (cs : List Char) : Option ℚ :=
  let intDigits := cs.takeWhile Char.isDigit
  let afterInt := cs.dropWhile Char.isDigit
  match afterInt with
  | '.' :: rest =>
    let fracDigits := rest.takeWhile Char.isDigit
    let afterFrac := rest.dropWhile Char.isDigit
    if intDigits.isEmpty && fracDigits.isEmpty then none
    else
      parse_exp
        (sign * ((digitsToNat intDigits : ℚ) +
          (digitsToNat fracDigits : ℚ) / (10 : ℚ) ^ fracDigits.length))
        afterFrac
  | _ =>
    if intDigits.isEmpty then none
    else parse_exp (sign * (digitsToNat intDigits : ℚ)) afterInt

/-- Model of Rust `str::parse::<f64>()` on finite decimal literals
(optional sign, digits with optional fraction, optional exponent), returning
the exact decimal value.  The non-finite literals `inf`/`infinity`/`NaN`
accepted by Rust have no rational counterpart and are outside the model. -/
def parse_f64 (s : String) : Option F64 :=
  match s.data with
  | '+' :: rest => parse_mantissa 1 rest
  | '-' :: rest => parse_mantissa (-1) rest
  | cs => parse_mantissa 1 cs

/-- Pure part of `EtherscanGasOracle::get_gas_prices` (etherscan.rs lines
92-122): reject a non-`"1"` status with the upstream message, then parse the
three tier strings in order (safe, propose, fast), failing on the first one
that is not a float literal. -/
def etherscan_process (resp : EtherscanGasResponse) : Except EtherscanError GasPrice :=
  if resp.status ≠ "1" then .error (.ApiError resp.message)
  else
    match parse_f64 resp.result.safe_gas_price with
    | none => .error (.InvalidGasPrice "safe" resp.result.safe_gas_price)
    | some low =>
      match parse_f64 resp.result.propose_gas_price with
      | none => .error (.InvalidGasPrice "propose" resp.result.propose_gas_price)
      | some average =>
        match parse_f64 resp.result.fast_gas_price with
        | none => .error (.InvalidGasPrice "fast" resp.result.fast_gas_price)
        | some high => .ok { low := low, average := average, high := high }

/-! ## Gas route (`src/api/routes/gas.rs`, `get_gas_estimates`) -/

/-- Environment of one gas-route request: the two relevant configuration
fields of `AppState.config` and the outcome of each oracle's network fetch
(`get_gas_prices().await`), were it to be performed. -/
structure GasRouteEnv where
  etherscan_api_key : Option String
  ethereum_rpc_url : Option String
  etherscan_fetch : Except EtherscanError GasPrice
  alloy_fetch : Except AlloyError GasPrice

/-- `get_gas_estimates` (gas.rs lines 42-116): dispatch on the
caller-specified provider; a missing credential, a failed constructor
(`EtherscanGasOracle::new` / `AlloyGasOracle::new` bail on an empty
key/URL), or a failed fetch all yield `none`, which the route serializes as
the single 500 error response; a successful fetch yields the full
`GasQuote`. -/
def get_gas_estimates (env : GasRouteEnv) (provider : GasOracleSource) : Option GasQuote :=
  match provider with
  | .Etherscan =>
    match env.etherscan_api_key with
    | some api_key =>
      if api_key.isEmpty then none
      else
        match env.etherscan_fetch with
        | .ok gas_price => some { gas_price := gas_price, provider := .Etherscan }
        | .error _ => none
    | none => none
  | .Alloy =>
    match env.ethereum_rpc_url with
    | some rpc_url =>
      if rpc_url.isEmpty then none
      else
        match env.alloy_fetch with
        | .ok gas_price => some { gas_price := gas_price, provider := .Alloy }
        | .error _ => none
    | none => none

/-! ## Quote data model (`src/coins/mod.rs`) -/

/-- `Currency` (coins/mod.rs). -/
inductive Currency where
  | USD | EUR | CHF | CNY | GBP | JPY | CAD | AUD
deriving DecidableEq

/-- `Coin` (coins/mod.rs). -/
inductive Coin where
  | ETH
deriving DecidableEq

/-- `ProviderSource` (coins/mod.rs). -/
inductive ProviderSource where
  | CoinMarketCap
  | CoinGecko
deriving DecidableEq

/-- `QuotePerAmount` (coins/mod.rs). -/
structure QuotePerAmount where
  amount : F64
  total_price : F64
deriving DecidableEq

/-- `Quote` (coins/mod.rs).  The `chrono` timestamp is carried as an opaque
integer (epoch value); it is only ever copied, never computed with. -/
structure Quote where
  coin : Coin
  currency : Currency
  price : F64
  provider : ProviderSource
  timestamp : ℤ
  quote_per_amount : QuotePerAmount
deriving DecidableEq

/-- `Quote::with_amount` (coins/mod.rs lines 214-226). -/
def Quote.with_amount (q : Quote) (amount : F64) : Quote :=
  { coin := q.coin
    currency := q.currency
    price := q.price
    provider := q.provider
    timestamp := q.timestamp
    quote_per_amount := { amount := amount, total_price := q.price * amount } }

/-! ## CoinMarketCap quote construction
(`src/domains/crypto/coinmarketcap.rs`, `CoinMarketCap::fetch_quotes`) -/

/-- The per-currency loop of `fetch_quotes` (coinmarketcap.rs lines 155-174):
`priceOf` models the JSON lookup `coin_data["quote"][currency]["price"]
.as_f64()`; each found price yields a quote with `amount = 1.0` and
`total_price = price`, and a missing price aborts the whole call
(`bail!("Price not found ...")`). -/
def cmc_build_quotes (coin : Coin) (timestamp : ℤ) (priceOf : Currency → Option F64) :
    List Currency → Except String (List Quote)
  | [] => .ok []
  | currency :: rest =>
    match priceOf currency with
    | some price =>
      match cmc_build_quotes coin timestamp priceOf rest with
      | .ok qs =>
        .ok ({ coin := coin
               currency := currency
               price := price
               provider := .CoinMarketCap
               timestamp := timestamp
               quote_per_amount := { amount := 1, total_price := price } } :: qs)
      | .error e => .error e
    | none => .error "Price not found from CoinMarketCap"

/-- Pure part of `CoinMarketCap::fetch_quotes` (coinmarketcap.rs lines
109-177): empty currency list short-circuits to an empty quote list before
any network call; a null `coin_data` JSON node aborts; otherwise the
per-currency loop runs. -/
def cmc_fetch_quotes (coin : Coin) (timestamp : ℤ) (coin_data_null : Bool)
    (priceOf : Currency → Option F64) (currencies : List Currency) :
    Except String (List Quote) :=
  if currencies.isEmpty then .ok []
  else if coin_data_null then .error "No data found for coin in CoinMarketCap response"
  else cmc_build_quotes coin timestamp priceOf currencies

/-! ## Crypto price route (`src/api/routes/crypto.rs`, `get_crypto_prices`) -/

/-- Environment of one crypto-route request: the CoinMarketCap credential
from `AppState.config`, and the outcomes of the two providers' effectful
steps.  `cmc_init` is the result of `CoinMarketCap::new` beyond the empty-key
check (header construction / HTTP client build); `cg_init` is the result of
`CoinGecko::new` (which accepts an absent key and can fail only on header /
client construction); `cmc_fetch` / `cg_fetch` are the outcomes of
`get_quotes(Coin::ETH, &[currency]).await`. -/
structure CryptoRouteEnv where
  coinmarketcap_api_key : Option String
  cmc_init : Except String Unit
  cmc_fetch : Except String (List Quote)
  cg_init : Except String Unit
  cg_fetch : Except String (List Quote)

/-- The CoinMarketCap block of `get_crypto_prices` (crypto.rs lines 62-90):
skipped when the key is unconfigured; `CoinMarketCap::new` bails on an empty
key; any initialization or fetch error is logged and contributes nothing;
on success the first returned quote is pushed after `with_amount`. -/
def cmc_part (env : CryptoRouteEnv) (amount : ℕ) : List Quote :=
  match env.coinmarketcap_api_key with
  | some api_key =>
    if api_key.isEmpty then []
    else
      match env.cmc_init with
      | .ok _ =>
        match env.cmc_fetch with
        | .ok cmc_quotes =>
          match cmc_quotes.head? with
          | some quote => [quote.with_amount (amount : ℚ)]
          | none => []
        | .error _ => []
      | .error _ => []
  | none => []

/-- The CoinGecko block of `get_crypto_prices` (crypto.rs lines 94-119):
always attempted (construction does not require a key); any initialization
or fetch error is logged and contributes nothing; on success the first
returned quote is pushed after `with_amount`. -/
def cg_part (env : CryptoRouteEnv) (amount : ℕ) : List Quote :=
  match env.cg_init with
  | .ok _ =>
    match env.cg_fetch with
    | .ok cg_quotes =>
      match cg_quotes.head? with
      | some quote => [quote.with_amount (amount : ℚ)]
      | none => []
    | .error _ => []
  | .error _ => []

/-- The quote list accumulated by `get_crypto_prices`: the CoinMarketCap
block pushes before the CoinGecko block (fixed provider priority order). -/
def collect_quotes (env : CryptoRouteEnv) (amount : ℕ) : List Quote :=
  cmc_part env amount ++ cg_part env amount

/-- `get_crypto_prices` (crypto.rs lines 52-131): after both provider blocks
have run, an empty quote list becomes the single 500 error response and a
non-empty one the 200 quote-list response. -/
def get_crypto_prices (env : CryptoRouteEnv) (amount : ℕ) : Except String (List Quote) :=
  let quotes := collect_quotes env amount
  if quotes.isEmpty then .error "No quotes available from any provider"
  else .ok quotes

/-! ## Helper lemmas about the sort used by the estimator -/

theorem ratLE_def : ratLE = fun a b => decide (a ≤ b) := rfl

/-- The ascending comparator is transitive (as a `Bool` relation). -/
theorem ratLE_trans : ∀ a b c : ℚ, ratLE a b = true → ratLE b c = true → ratLE a c = true := by
  intro a b c hab hbc
  simp only [ratLE, decide_eq_true_eq] at *
  exact le_trans hab hbc

/-- The ascending comparator is total (as a `Bool` relation). -/
theorem ratLE_total : ∀ a b : ℚ, (ratLE a b || ratLE b a) = true := by
  intro a b
  simp only [ratLE, Bool.or_eq_true, decide_eq_true_eq]
  exact le_total a b

/-- The sort performed by the estimator produces an ascending list. -/
theorem sorted_mergeSort_ratLE (l : List ℚ) :
    List.Sorted (· ≤ ·) (l.mergeSort ratLE) := by
  have h := List.sorted_mergeSort ratLE_trans ratLE_total l
  exact h.imp (fun hab => by simpa [ratLE] using hab)

/-- In an ascending list, `getD` at a smaller in-bounds index is at most
`getD` at a larger in-bounds index. -/
theorem sorted_getD_mono {s : List ℚ} (hs : List.Sorted (· ≤ ·) s)
    {i j : ℕ} (hij : i ≤ j) (hj : j < s.length) :
    s.getD i 0 ≤ s.getD j 0 := by
  have hi : i < s.length := lt_of_le_of_lt hij hj
  rw [List.getD_eq_getElem s 0 hi, List.getD_eq_getElem s 0 hj]
  rcases lt_or_eq_of_le hij with h | h
  · exact hs.rel_get_of_lt (a := ⟨i, hi⟩) (b := ⟨j, hj⟩) h
  · subst h; exact le_refl _

/-! ## C6: empty base-fee sequence -/

/-- C6: for every fee history whose base-fee sequence is empty, the
fee-history percentile estimator fails (with the calculation error that
realizes the spec's `InsufficientData`) and returns no tiers. -/
theorem estimator_insufficient_data (fh : FeeHistory)
    (h : fh.base_fee_per_gas = []) :
    calculate_gas_prices fh =
      .error (.CalculationError "No base fee data available") := by
  simp [calculate_gas_prices, h]

/-- Witness for C6 at the concrete empty fee history. -/
theorem estimator_insufficient_data_witness :
    calculate_gas_prices ⟨[], none⟩ =
      .error (.CalculationError "No base fee data available") :=
  estimator_insufficient_data ⟨[], none⟩ rfl

/-! ## C7: conservative fallback when no priority-fee samples exist -/

/-- C7: for every fee history with a non-empty base-fee sequence but zero
collected priority-fee samples, the estimator returns
`base_fee_gwei + 1.0 / + 2.0 / + 3.0` for low/average/high. -/
theorem estimator_fallback (fh : FeeHistory)
    (h1 : fh.base_fee_per_gas ≠ [])
    (h2 : collect_priority_fees fh = []) :
    calculate_gas_prices fh =
      .ok (wei_to_gwei (fh.base_fee_per_gas.getLastD 0) + 1,
           wei_to_gwei (fh.base_fee_per_gas.getLastD 0) + 2,
           wei_to_gwei (fh.base_fee_per_gas.getLastD 0) + 3) := by
  unfold calculate_gas_prices
  rw [List.getLastD_eq_getLast?]
  cases hl : fh.base_fee_per_gas.getLast? with
  | none => exact absurd (List.getLast?_eq_none_iff.mp hl) h1
  | some v => simp [List.isEmpty_iff, h1, h2, hl]

/-- Witness for C7: latest base fee 30 gwei and no reward data yield the
tiers 31 / 32 / 33 gwei. -/
theorem estimator_fallback_witness :
    calculate_gas_prices ⟨[30000000000], none⟩ = .ok (31, 32, 33) := by
  rw [estimator_fallback ⟨[30000000000], none⟩ (by simp) rfl]
  norm_num [wei_to_gwei]

/-! ## C1: the estimator computes base fee plus floored percentile tiers -/

/-- C1: for every fee history with a non-empty base-fee sequence and a
non-empty list of collected per-block first reward values, the estimator
returns `base_fee_gwei + tier` for each of low/average/high, where
`base_fee_gwei` is the most recent base fee divided by 1e9 and the tiers are
obtained by sorting the collected gwei samples ascending, picking indices
`⌊L/4⌋ / ⌊L/2⌋ / ⌊3L/4⌋`, and flooring at 1.0 / 2.0 / 3.0 gwei
(`spec_priority_tiers`). -/
theorem estimator_matches_spec (fh : FeeHistory)
    (h1 : fh.base_fee_per_gas ≠ [])
    (h2 : collect_priority_fees fh ≠ []) :
    calculate_gas_prices fh =
      .ok (wei_to_gwei (fh.base_fee_per_gas.getLastD 0) +
             (spec_priority_tiers (collect_priority_fees fh)).1,
           wei_to_gwei (fh.base_fee_per_gas.getLastD 0) +
             (spec_priority_tiers (collect_priority_fees fh)).2.1,
           wei_to_gwei (fh.base_fee_per_gas.getLastD 0) +
             (spec_priority_tiers (collect_priority_fees fh)).2.2) := by
  unfold calculate_gas_prices spec_priority_tiers
  rw [List.getLastD_eq_getLast?]
  cases hl : fh.base_fee_per_gas.getLast? with
  | none => exact absurd (List.getLast?_eq_none_iff.mp hl) h1
  | some v => simp [List.isEmpty_iff, h1, h2, hl]

/-- Witness for C1: the spec's scenario — latest base fee 30_000_000_000 wei
and reward samples `[[1e9], [2e9], [3e9], [4e9]]` produce the tiers
32 / 33 / 34 gwei. -/
theorem estimator_matches_spec_witness :
    calculate_gas_prices
        ⟨[30000000000],
         some [[1000000000], [2000000000], [3000000000], [4000000000]]⟩ =
      .ok (32, 33, 34) := by
  have hc : collect_priority_fees
      ⟨[30000000000],
       some [[1000000000], [2000000000], [3000000000], [4000000000]]⟩ =
      [1, 2, 3, 4] := by
    simp [collect_priority_fees, wei_to_gwei]
    norm_num
  rw [estimator_matches_spec _ (by simp) (by rw [hc]; simp), hc]
  have hsorted : List.Sorted (· ≤ ·) ([1, 2, 3, 4] : List ℚ) := by
    simp [List.sorted_cons]
    norm_num
  have hst : spec_priority_tiers [1, 2, 3, 4] = (2, 3, 4) := by
    unfold spec_priority_tiers
    rw [ratLE_def, List.mergeSort_eq_self hsorted]
    norm_num [List.getD, max_def]
  rw [hst]
  norm_num [wei_to_gwei]

/-! ## C10: the estimator's tiers are always ordered -/

/-- The three floored percentile picks of the non-empty branch are
non-decreasing: the sort is ascending, the indices `⌊L/4⌋ ≤ ⌊L/2⌋ ≤ ⌊3L/4⌋`
are in bounds, and the floors 1.0 / 2.0 / 3.0 preserve the order. -/
theorem priority_tiers_mono (pf : List F64) (hpf : pf ≠ []) :
    max ((pf.mergeSort ratLE).getD (pf.length / 4) 0) 1 ≤
        max ((pf.mergeSort ratLE).getD (pf.length / 2) 0) 2 ∧
    max ((pf.mergeSort ratLE).getD (pf.length / 2) 0) 2 ≤
        max ((pf.mergeSort ratLE).getD (pf.length * 3 / 4) 0) 3 := by
  have hlen : 0 < pf.length := List.length_pos.mpr hpf
  have hslen : (pf.mergeSort ratLE).length = pf.length :=
    List.length_mergeSort pf
  have hs := sorted_mergeSort_ratLE pf
  have h14 : pf.length / 4 ≤ pf.length / 2 := by omega
  have h24 : pf.length / 2 ≤ pf.length * 3 / 4 := by omega
  have h34 : pf.length * 3 / 4 < (pf.mergeSort ratLE).length := by omega
  constructor
  · exact max_le_max (sorted_getD_mono hs h14 (by omega)) (by norm_num)
  · exact max_le_max (sorted_getD_mono hs h24 h34) (by norm_num)

/-- C10: whenever the estimator succeeds, its output satisfies
`low ≤ average ≤ high`, in both the conservative-fallback branch and the
sorted-percentile branch. -/
theorem estimator_tiers_ordered (fh : FeeHistory) (lo av hi : F64)
    (hok : calculate_gas_prices fh = .ok (lo, av, hi)) :
    lo ≤ av ∧ av ≤ hi := by
  unfold calculate_gas_prices at hok
  by_cases hbe : fh.base_fee_per_gas.isEmpty
  · simp [hbe] at hok
  · cases hl : fh.base_fee_per_gas.getLast? with
    | none =>
      exact absurd (List.getLast?_eq_none_iff.mp hl)
        (by simpa [List.isEmpty_iff] using hbe)
    | some v =>
      rw [hl] at hok
      simp only [hbe, Bool.false_eq_true, if_false, Except.ok.injEq,
        Prod.mk.injEq] at hok
      obtain ⟨h1, h2, h3⟩ := hok
      by_cases hpf : (collect_priority_fees fh).isEmpty
      · simp only [hpf, if_true] at h1 h2 h3
        subst h1 h2 h3
        refine ⟨?_, ?_⟩ <;> (gcongr; norm_num)
      · simp only [hpf, Bool.false_eq_true, if_false] at h1 h2 h3
        subst h1 h2 h3
        have hmono := priority_tiers_mono (collect_priority_fees fh)
          (by simpa [List.isEmpty_iff] using hpf)
        exact ⟨add_le_add_left hmono.1 _, add_le_add_left hmono.2 _⟩

/-- Witness for C10 at a concrete fee history (fallback branch, base fee
10 gwei, tiers 11 ≤ 12 ≤ 13). -/
theorem estimator_tiers_ordered_witness :
    (11 : F64) ≤ 12 ∧ (12 : F64) ≤ 13 := by
  have hok : calculate_gas_prices ⟨[10000000000], none⟩ = .ok (11, 12, 13) := by
    have h : collect_priority_fees ⟨[10000000000], none⟩ = [] := rfl
    simp [calculate_gas_prices, h, wei_to_gwei]
    norm_num
  exact estimator_tiers_ordered ⟨[10000000000], none⟩ 11 12 13 hok

/-! ## C4: Etherscan oracle response processing -/

/-- C4: the Etherscan oracle processing (i) maps the documented success
response (`status = "1"`, tiers `"10.5"/"15.2"/"20.9"`) to the tier set
`{10.5, 15.2, 20.9}`; (ii) rejects every response whose status is not `"1"`
with the upstream-rejection error carrying the upstream message; and
(iii) fails with a malformed-data (invalid gas price) error whenever the
status is `"1"` but any of the three tier strings does not parse as a
float. -/
theorem etherscan_gas_prices_spec :
    (∀ m : String,
      etherscan_process ⟨"1", m, ⟨"10.5", "15.2", "20.9"⟩⟩ =
        .ok ⟨10.5, 15.2, 20.9⟩) ∧
    (∀ resp : EtherscanGasResponse, resp.status ≠ "1" →
      etherscan_process resp = .error (.ApiError resp.message)) ∧
    (∀ resp : EtherscanGasResponse, resp.status = "1" →
      (parse_f64 resp.result.safe_gas_price = none ∨
       parse_f64 resp.result.propose_gas_price = none ∨
       parse_f64 resp.result.fast_gas_price = none) →
      ∃ t v, etherscan_process resp = .error (.InvalidGasPrice t v)) := by
  refine ⟨?_, ?_, ?_⟩
  · intro m
    have h105 : parse_f64 "10.5" = some (10.5 : ℚ) := by
      have h : parse_f64 "10.5" =
          some ((1 : ℚ) * ((10 : ℚ) + (5 : ℚ) / (10 : ℚ) ^ (1 : ℕ))) := rfl
      rw [h]; norm_num
    have h152 : parse_f64 "15.2" = some (15.2 : ℚ) := by
      have h : parse_f64 "15.2" =
          some ((1 : ℚ) * ((15 : ℚ) + (2 : ℚ) / (10 : ℚ) ^ (1 : ℕ))) := rfl
      rw [h]; norm_num
    have h209 : parse_f64 "20.9" = some (20.9 : ℚ) := by
      have h : parse_f64 "20.9" =
          some ((1 : ℚ) * ((20 : ℚ) + (9 : ℚ) / (10 : ℚ) ^ (1 : ℕ))) := rfl
      rw [h]; norm_num
    simp [etherscan_process, h105, h152, h209]
  · intro resp hst
    simp [etherscan_process, hst]
  · intro resp hst hbad
    unfold etherscan_process
    rw [if_neg (by simp [hst])]
    rcases hsafe : parse_f64 resp.result.safe_gas_price with _ | lo
    · exact ⟨"safe", resp.result.safe_gas_price, rfl⟩
    · rcases hpro : parse_f64 resp.result.propose_gas_price with _ | av
      · exact ⟨"propose", resp.result.propose_gas_price, rfl⟩
      · rcases hfast : parse_f64 resp.result.fast_gas_price with _ | hi
        · exact ⟨"fast", resp.result.fast_gas_price, rfl⟩
        · rcases hbad with hb | hb | hb <;>
            simp [hsafe, hpro, hfast] at hb

/-- Witness for C4: the documented success scenario, a status-`"0"`
rejection, and a malformed `SafeGasPrice` are all settled at concrete
responses. -/
theorem etherscan_gas_prices_spec_witness :
    etherscan_process ⟨"1", "OK", ⟨"10.5", "15.2", "20.9"⟩⟩ =
        .ok ⟨10.5, 15.2, 20.9⟩ ∧
    etherscan_process ⟨"0", "NOTOK", ⟨"10.5", "15.2", "20.9"⟩⟩ =
        .error (.ApiError "NOTOK") ∧
    ∃ t v,
      etherscan_process ⟨"1", "OK", ⟨"abc", "15.2", "20.9"⟩⟩ =
        .error (.InvalidGasPrice t v) :=
  ⟨etherscan_gas_prices_spec.1 "OK",
   etherscan_gas_prices_spec.2.1 ⟨"0", "NOTOK", ⟨"10.5", "15.2", "20.9"⟩⟩
     (by decide),
   etherscan_gas_prices_spec.2.2 ⟨"1", "OK", ⟨"abc", "15.2", "20.9"⟩⟩ rfl
     (Or.inl rfl)⟩

/-! ## C5: gas route consults only the caller-specified oracle -/

/-- C5: for every gas-price request, (i) the Etherscan-source result is
unchanged by any change to the Alloy configuration and fetch outcome, and
symmetrically for the Alloy source (the other variant is never consulted as
a fallback); (ii) a successful result is a single complete tier-set tagged
with the requested provider; (iii) a missing credential, an empty
credential (constructor failure), or a failed fetch of the selected source
yields the error response (`none`). -/
theorem gas_route_isolated_selection :
    (∀ (env : GasRouteEnv) (af : Except AlloyError GasPrice) (u : Option String),
      get_gas_estimates { env with alloy_fetch := af, ethereum_rpc_url := u }
          .Etherscan =
        get_gas_estimates env .Etherscan) ∧
    (∀ (env : GasRouteEnv) (ef : Except EtherscanError GasPrice) (k : Option String),
      get_gas_estimates { env with etherscan_fetch := ef, etherscan_api_key := k }
          .Alloy =
        get_gas_estimates env .Alloy) ∧
    (∀ (env : GasRouteEnv) (p : GasOracleSource) (q : GasQuote),
      get_gas_estimates env p = some q → q.provider = p) ∧
    (∀ env : GasRouteEnv,
      (env.etherscan_api_key = none ∨ env.etherscan_api_key = some "" ∨
        ∃ e, env.etherscan_fetch = .error e) →
      get_gas_estimates env .Etherscan = none) ∧
    (∀ env : GasRouteEnv,
      (env.ethereum_rpc_url = none ∨ env.ethereum_rpc_url = some "" ∨
        ∃ e, env.alloy_fetch = .error e) →
      get_gas_estimates env .Alloy = none) := by
  refine ⟨?_, ?_, ?_, ?_, ?_⟩
  · intro env af u
    obtain ⟨k, _, ef, _⟩ := env
    rfl
  · intro env ef k
    obtain ⟨_, u, _, af⟩ := env
    rfl
  · intro env p q hq
    cases p
    case Etherscan =>
      rcases hk : env.etherscan_api_key with _ | key <;>
        simp only [get_gas_estimates, hk] at hq
      · exact absurd hq (by simp)
      · by_cases hke : key.isEmpty
        · rw [if_pos hke] at hq
          exact absurd hq (by simp)
        · rw [if_neg hke] at hq
          rcases hf : env.etherscan_fetch with e | gp <;> rw [hf] at hq
          · exact absurd hq (by simp)
          · obtain rfl := Option.some.inj hq
            rfl
    case Alloy =>
      rcases hu : env.ethereum_rpc_url with _ | url <;>
        simp only [get_gas_estimates, hu] at hq
      · exact absurd hq (by simp)
      · by_cases hue : url.isEmpty
        · rw [if_pos hue] at hq
          exact absurd hq (by simp)
        · rw [if_neg hue] at hq
          rcases hf : env.alloy_fetch with e | gp <;> rw [hf] at hq
          · exact absurd hq (by simp)
          · obtain rfl := Option.some.inj hq
            rfl
  · intro env h
    obtain ⟨k, u, ef, af⟩ := env
    rcases h with h | h | ⟨e, h⟩
    · subst h; rfl
    · subst h; rfl
    · subst h
      rcases k with _ | key
      · rfl
      · by_cases hk : key.isEmpty
        · simp [get_gas_estimates, hk]
        · simp [get_gas_estimates, hk]
  · intro env h
    obtain ⟨k, u, ef, af⟩ := env
    rcases h with h | h | ⟨e, h⟩
    · subst h; rfl
    · subst h; rfl
    · subst h
      rcases u with _ | url
      · rfl
      · by_cases hu : url.isEmpty
        · simp [get_gas_estimates, hu]
        · simp [get_gas_estimates, hu]

/-- Witness for C5: the selected-provider tag and the unconfigured-source
error are settled at concrete environments. -/
theorem gas_route_isolated_selection_witness :
    (GasQuote.mk ⟨1, 2, 3⟩ .Etherscan).provider = GasOracleSource.Etherscan ∧
    get_gas_estimates
        ⟨none, some "http://x", .ok ⟨1, 2, 3⟩, .ok ⟨4, 5, 6⟩⟩ .Etherscan =
      none :=
  ⟨gas_route_isolated_selection.2.2.1
      ⟨some "key", none, .ok ⟨1, 2, 3⟩, .error .MissingRpcUrl⟩ .Etherscan _ rfl,
   gas_route_isolated_selection.2.2.2.1
      ⟨none, some "http://x", .ok ⟨1, 2, 3⟩, .ok ⟨4, 5, 6⟩⟩ (Or.inl rfl)⟩

/-! ## C2: aggregator errors exactly when no provider produced a quote -/

/-- C2: the crypto price aggregator (i) returns the no-quotes error response
exactly when the collected quote list is empty after both provider blocks
have run; (ii) a CoinMarketCap fetch failure contributes zero quotes and
leaves the CoinGecko contribution unchanged; (iii) symmetrically for a
CoinGecko fetch failure; (iv) the only outcomes ever surfaced to the caller
are the no-quotes error and the collected quote list — no individual
provider error propagates. -/
theorem aggregator_error_iff_no_quotes :
    (∀ (env : CryptoRouteEnv) (amount : ℕ),
      get_crypto_prices env amount =
          .error "No quotes available from any provider" ↔
        collect_quotes env amount = []) ∧
    (∀ (env : CryptoRouteEnv) (amount : ℕ) (e : String),
      cmc_part { env with cmc_fetch := .error e } amount = [] ∧
      cg_part { env with cmc_fetch := .error e } amount = cg_part env amount) ∧
    (∀ (env : CryptoRouteEnv) (amount : ℕ) (e : String),
      cg_part { env with cg_fetch := .error e } amount = [] ∧
      cmc_part { env with cg_fetch := .error e } amount = cmc_part env amount) ∧
    (∀ (env : CryptoRouteEnv) (amount : ℕ),
      get_crypto_prices env amount =
          .error "No quotes available from any provider" ∨
      get_crypto_prices env amount = .ok (collect_quotes env amount)) := by
  refine ⟨?_, ?_, ?_, ?_⟩
  · intro env amount
    unfold get_crypto_prices
    by_cases h : collect_quotes env amount = [] <;>
      simp [h, List.isEmpty_iff]
  · intro env amount e
    obtain ⟨k, ci, cf, gi, gf⟩ := env
    refine ⟨?_, rfl⟩
    rcases k with _ | key
    · rfl
    · rcases ci with ce | cu <;> by_cases hk : key.isEmpty <;>
        simp [cmc_part, hk]
  · intro env amount e
    obtain ⟨k, ci, cf, gi, gf⟩ := env
    refine ⟨?_, rfl⟩
    rcases gi with ge | gu <;> rfl
  · intro env amount
    unfold get_crypto_prices
    by_cases h : collect_quotes env amount = [] <;>
      simp [h, List.isEmpty_iff]

/-! ## C3: unconfigured provider A is skipped, B's quotes are returned -/

/-- C3: when the CoinMarketCap key is unconfigured and CoinGecko succeeds
with a quote, the aggregator returns a successful result containing exactly
the CoinGecko quote (normalized to the requested amount), and quotes are
always assembled in fixed provider priority order — the CoinMarketCap block
before the CoinGecko block. -/
theorem aggregator_skips_unconfigured_provider
    (env : CryptoRouteEnv) (amount : ℕ) (q : Quote)
    (hkey : env.coinmarketcap_api_key = none)
    (hinit : env.cg_init = .ok ())
    (hfetch : env.cg_fetch = .ok [q]) :
    get_crypto_prices env amount = .ok [q.with_amount (amount : ℚ)] ∧
    collect_quotes env amount = cmc_part env amount ++ cg_part env amount := by
  refine ⟨?_, rfl⟩
  have hcmc : cmc_part env amount = [] := by simp [cmc_part, hkey]
  have hcg : cg_part env amount = [q.with_amount (amount : ℚ)] := by
    simp [cg_part, hinit, hfetch]
  simp [get_crypto_prices, collect_quotes, hcmc, hcg]

/-- Sample unit quote used by concrete witnesses. -/
def sample_quote : Quote :=
  { coin := .ETH
    currency := .USD
    price := 2000
    provider := .CoinGecko
    timestamp := 0
    quote_per_amount := { amount := 1, total_price := 2000 } }

/-- Witness for C3 at a concrete environment: no CoinMarketCap key, a
successful CoinGecko fetch of one quote, requested amount 5. -/
theorem aggregator_skips_unconfigured_provider_witness :
    get_crypto_prices ⟨none, .ok (), .ok [], .ok (), .ok [sample_quote]⟩ 5 =
        .ok [sample_quote.with_amount ((5 : ℕ) : ℚ)] ∧
    collect_quotes ⟨none, .ok (), .ok [], .ok (), .ok [sample_quote]⟩ 5 =
      cmc_part ⟨none, .ok (), .ok [], .ok (), .ok [sample_quote]⟩ 5 ++
        cg_part ⟨none, .ok (), .ok [], .ok (), .ok [sample_quote]⟩ 5 :=
  aggregator_skips_unconfigured_provider
    ⟨none, .ok (), .ok [], .ok (), .ok [sample_quote]⟩ 5 sample_quote
    rfl rfl rfl

/-! ## C8: `total_price == unit_price * amount` -/

/-- Every quote list built by the CoinMarketCap per-currency loop carries
`amount = 1` and `total_price = price`. -/
theorem cmc_build_quotes_unit (coin : Coin) (ts : ℤ)
    (priceOf : Currency → Option F64) :
    ∀ (cs : List Currency) (qs : List Quote),
      cmc_build_quotes coin ts priceOf cs = .ok qs →
      ∀ q ∈ qs, q.quote_per_amount.amount = 1 ∧
        q.quote_per_amount.total_price = q.price := by
  intro cs
  induction cs with
  | nil =>
    intro qs h q hq
    simp only [cmc_build_quotes, Except.ok.injEq] at h
    subst h
    simp at hq
  | cons c rest ih =>
    intro qs h q hq
    simp only [cmc_build_quotes] at h
    rcases hp : priceOf c with _ | price <;> rw [hp] at h
    · simp at h
    · rcases hr : cmc_build_quotes coin ts priceOf rest with e | qs' <;>
        rw [hr] at h
      · simp at h
      · simp only [Except.ok.injEq] at h
        subst h
        rcases List.mem_cons.mp hq with hq | hq
        · subst hq; exact ⟨rfl, rfl⟩
        · exact ih qs' hr q hq

/-- C8: (i) every quote constructed by the CoinMarketCap adapter carries
`amount = 1.0` with `total_price` equal to the unit price (so
`total_price == unit_price * amount`); and (ii) for every quote `q` and
every amount `a`, `q.with_amount a` yields
`quote_per_amount.total_price == q.price * a`. -/
theorem quote_total_price_invariant :
    (∀ (q : Quote) (a : F64),
      (q.with_amount a).quote_per_amount.total_price = q.price * a) ∧
    (∀ (coin : Coin) (ts : ℤ) (cdn : Bool) (priceOf : Currency → Option F64)
        (currencies : List Currency) (qs : List Quote),
      cmc_fetch_quotes coin ts cdn priceOf currencies = .ok qs →
      ∀ q ∈ qs, q.quote_per_amount.amount = 1 ∧
        q.quote_per_amount.total_price = q.price) := by
  refine ⟨fun q a => rfl, ?_⟩
  intro coin ts cdn priceOf currencies qs h q hq
  unfold cmc_fetch_quotes at h
  by_cases hce : currencies.isEmpty
  · simp only [hce, if_true, Except.ok.injEq] at h
    subst h
    simp at hq
  · rcases cdn with _ | _
    · simp only [hce, Bool.false_eq_true, if_false] at h
      exact cmc_build_quotes_unit coin ts priceOf currencies qs h q hq
    · simp [hce] at h

/-- Witness for C8: the adapter invariant at a concrete one-currency fetch,
and `with_amount` at amount 2.5. -/
theorem quote_total_price_invariant_witness :
    ((sample_quote.with_amount 2.5).quote_per_amount.total_price =
        sample_quote.price * 2.5) ∧
    ((Quote.mk .ETH .USD 100 .CoinMarketCap 0 ⟨1, 100⟩).quote_per_amount.amount
        = 1 ∧
      (Quote.mk .ETH .USD 100 .CoinMarketCap 0 ⟨1, 100⟩).quote_per_amount.total_price
        = (Quote.mk .ETH .USD 100 .CoinMarketCap 0 ⟨1, 100⟩).price) :=
  ⟨quote_total_price_invariant.1 sample_quote 2.5,
   quote_total_price_invariant.2 .ETH 0 false (fun _ => some 100) [.USD] _ rfl
     _ (List.mem_singleton_self _)⟩

/-! ## C9: `with_amount` changes only the amount breakdown -/

/-- C9: `Quote::with_amount` is pure and preserves the coin, currency, unit
price, provider, and timestamp of its receiver, changing only the
`quote_per_amount` breakdown to `{a, price * a}` (the receiver itself is a
value and is unchanged by construction of the embedding). -/
theorem with_amount_frame (q : Quote) (a : F64) :
    (q.with_amount a).coin = q.coin ∧
    (q.with_amount a).currency = q.currency ∧
    (q.with_amount a).price = q.price ∧
    (q.with_amount a).provider = q.provider ∧
    (q.with_amount a).timestamp = q.timestamp ∧
    (q.with_amount a).quote_per_amount =
      { amount := a, total_price := q.price * a } :=
  ⟨rfl, rfl, rfl, rfl, rfl, rfl⟩

end Boltzmann
